import Mathlib

/-!
Formal model of the column-typing and aggregation core of `JA_Elevate_App.py`
(repository `angheljf/Web_App`).

A tabular column (`Series`) is a list of optional cells tagged with its pandas
storage dtype (object / numeric / datetime).  The pattern samplers
(`is_zip_code`, `is_id_format`, `is_phone_number`, `is_date_column`), the
column classifier (`detect_excluded_columns`), the numeric cleaner
(`clean_for_numeric`), the type resolver (`convert_numeric_columns`), the
grouping-value normalization (`normalizeKey`) and the group-by-sum
aggregation (`aggregate`, `total_students`) are translated directly from the
Python source.  Library routines the source calls (regular-expression
matching, `pd.to_numeric`, `pd.to_datetime`, string rendering of cells) are
modelled as explicit executable functions on strings and rational numbers.
-/

namespace JAElevate

/-! ### String utilities (model of Python `str.strip` and friends) -/

/-- Whitespace test used by the trimming model. -/
def wsB (c : Char) : Bool := c.isWhitespace

/-- Drop leading, then trailing, whitespace characters from a character list.
Models Python `str.strip()` on the whitespace the app encounters. -/
def trimChars (l : List Char) : List Char :=
  ((l.dropWhile wsB).reverse.dropWhile wsB).reverse

/-- Model of `str.strip()` on strings. -/
def strTrim (s : String) : String := ⟨trimChars s.data⟩

/-- Characters removed by the cleaning regex `[\$,€%]` in `clean_for_numeric`. -/
def isCurrencyChar (c : Char) : Bool := c == '$' || c == ',' || c == '€' || c == '%'

/-- Remove every occurrence of the characters matched by `[\$,€%]`. -/
def removeCurrency (s : String) : String := ⟨s.data.filter (fun c => !(isCurrencyChar c))⟩

/-- Character-wise lowercasing (model of Python `str.lower`). -/
def strLower (s : String) : String := ⟨s.data.map Char.toLower⟩

/-! ### Model of the numeric parse performed by `pd.to_numeric(..., errors='coerce')` -/

/-- Numeric value of a digit string (most significant digit first). -/
def digitsToNat (l : List Char) : Nat :=
  l.foldl (fun n c => 10 * n + (c.toNat - '0'.toNat)) 0

/-- Read an optional leading sign, returning the sign factor and the rest. -/
def readSign : List Char → (Int × List Char)
  | '+' :: r => (1, r)
  | '-' :: r => (-1, r)
  | l => (1, l)

/-- Parse a decimal mantissa: digits, or digits '.' digits, or '.' digits.
Returns the mantissa digits as a natural number, the number of fractional
digits, and the unconsumed characters. -/
def parseMantissa (cs : List Char) : Option (Nat × Nat × List Char) :=
  let ip := cs.takeWhile Char.isDigit
  let r1 := cs.dropWhile Char.isDigit
  match r1 with
  | '.' :: r2 =>
      let fp := r2.takeWhile Char.isDigit
      let r3 := r2.dropWhile Char.isDigit
      if ip.isEmpty && fp.isEmpty then none
      else some (digitsToNat (ip ++ fp), fp.length, r3)
  | _ => if ip.isEmpty then none else some (digitsToNat ip, 0, r1)

/-- Parse an optional exponent part `e`/`E`, optional sign, digits. -/
def parseExpPart : List Char → Option (Int × List Char)
  | [] => some (0, [])
  | c :: r =>
      if c == 'e' || c == 'E' then
        let sr : Int × List Char :=
          match r with
          | '+' :: t => (1, t)
          | '-' :: t => (-1, t)
          | t => (1, t)
        let ds := sr.2.takeWhile Char.isDigit
        let r3 := sr.2.dropWhile Char.isDigit
        if ds.isEmpty then none else some (sr.1 * (digitsToNat ds : Int), r3)
      else some (0, c :: r)

/-- Rational value of a parsed signed decimal: sign, mantissa digits, number
of fractional digits and decimal exponent. -/
def decToRat (sign : Int) (mant fracLen : Nat) (e : Int) : Rat :=
  let e2 : Int := e - (fracLen : Int)
  if 0 ≤ e2 then mkRat (sign * ((mant * 10 ^ e2.toNat : Nat) : Int)) 1
  else mkRat (sign * (mant : Int)) (10 ^ (-e2).toNat)

/-- Model of the scalar parse done by `pd.to_numeric(..., errors='coerce')` on a
string: surrounding whitespace is tolerated, a (signed) `nan` is the missing
marker, otherwise a signed decimal with optional exponent must consume the
whole string; any failure yields the missing marker (infinities, which the
app's data never contains, are modelled as missing as well). -/
def pdToNumeric (s : String) : Option Rat :=
  let t := strTrim s
  if strLower t = "nan" || strLower t = "+nan" || strLower t = "-nan" then none
  else
    let sc := readSign t.data
    match parseMantissa sc.2 with
    | none => none
    | some (m, fl, r) =>
        match parseExpPart r with
        | none => none
        | some (e, r2) => if r2.isEmpty then some (decToRat sc.1 m fl e) else none

/-! ### Rendering of cells as strings (model of `astype(str)`) -/

/-- Decimal digits of the fraction `r / d`, at most `p` of them, stopping when
the remainder is exhausted. -/
def fracDigits : Nat → Nat → Nat → List Char
  | 0, _, _ => []
  | _ + 1, 0, _ => []
  | p + 1, r, d => Char.ofNat ('0'.toNat + (r * 10) / d) :: fracDigits p ((r * 10) % d) d

/-- Decimal rendering of a rational, modelling the float repr produced by
`astype(str)` on a numeric cell (for example `7 ↦ "7.0"`). -/
def ratToStr (q : Rat) : String :=
  let sgn := if q.num < 0 then "-" else ""
  let n := q.num.natAbs
  let ip := n / q.den
  let rem := n % q.den
  let ds := fracDigits 17 rem q.den
  sgn ++ toString ip ++ "." ++ (if ds.isEmpty then "0" else (⟨ds⟩ : String))

/-- Rendering of a datetime cell as a string, modelling `astype(str)` on a
datetime value (a timestamp rendered with a time-of-day suffix). -/
def dtToStr (n : Nat) : String := toString n ++ " 00:00:00"

/-! ### Columns -/

/-- A tabular column: its cells together with its pandas storage dtype.
Cells are optional; `none` is the missing marker (NaN / NaT). -/
inductive Series where
  | obj (cells : List (Option String))
  | num (cells : List (Option Rat))
  | dt (cells : List (Option Nat))
deriving DecidableEq

/-- Number of non-missing cells of a column (`len(series.dropna())`). -/
def nonMissingCount : Series → Nat
  | .obj cs => (cs.filterMap id).length
  | .num cs => (cs.filterMap id).length
  | .dt cs => (cs.filterMap id).length

/-- Model of `series.astype(str)`: every cell becomes a string, missing cells
included (pandas renders a missing object/float cell as the string `nan` and a
missing datetime cell as `NaT`). -/
def astypeStr : Series → Series
  | .obj cs => .obj (cs.map (fun c => some (c.getD "nan")))
  | .num cs => .obj (cs.map (fun c => some (match c with | some q => ratToStr q | none => "nan")))
  | .dt cs => .obj (cs.map (fun c => some (match c with | some n => dtToStr n | none => "NaT")))

/-- Final column type assigned by the resolver: numeric dtype or text. -/
inductive ColType where
  | Numeric
  | Text
deriving DecidableEq

/-- Column type as read off a column's storage dtype. -/
def seriesType : Series → ColType
  | .num _ => .Numeric
  | _ => .Text

/-- The sampling step `series.dropna().astype(str).head(100)` shared by the
pattern samplers. -/
def sampleStrings : Series → List String
  | .obj cs => (cs.filterMap id).take 100
  | .num cs => ((cs.filterMap id).take 100).map ratToStr
  | .dt cs => ((cs.filterMap id).take 100).map dtToStr

/-! ### Pattern matchers (models of the compiled regular expressions) -/

/-- Consume exactly `n` characters satisfying `p`, returning the rest. -/
def consumeN (p : Char → Bool) : Nat → List Char → Option (List Char)
  | 0, cs => some cs
  | _ + 1, [] => none
  | n + 1, c :: cs => if p c then consumeN p n cs else none

/-- Consume one character satisfying `p`, then continue with `k`. -/
def oneChar (p : Char → Bool) (cs : List Char) (k : List Char → Bool) : Bool :=
  match cs with
  | c :: r => p c && k r
  | [] => false

/-- Optionally consume one character satisfying `p` (both alternatives are
tried, mirroring the backtracking of a regex `X?`). -/
def optThen (p : Char → Bool) (cs : List Char) (k : List Char → Bool) : Bool :=
  k cs ||
    match cs with
    | c :: r => p c && k r
    | [] => false

/-- Consume between `lo` and `hi` characters satisfying `p`, trying every
count, then continue with `k` (a regex counted repetition `X{lo,hi}`). -/
def tryRange (p : Char → Bool) (lo hi : Nat) (cs : List Char) (k : List Char → Bool) : Bool :=
  (List.range (hi + 1)).any fun d =>
    decide (lo ≤ d) &&
      match consumeN p d cs with
      | some r => k r
      | none => false

/-- Consume one or more characters satisfying `p`, trying every stopping
point, then continue with `k` (a regex repetition `X+`). -/
def many1 (p : Char → Bool) : List Char → (List Char → Bool) → Bool
  | [], _ => false
  | c :: cs, k => p c && (k cs || many1 p cs k)

/-- Full match of the ZIP pattern `^\d{5}(-\d{4})?$`. -/
def zipMatch (cs : List Char) : Bool :=
  match consumeN Char.isDigit 5 cs with
  | none => false
  | some [] => true
  | some ('-' :: r) =>
      match consumeN Char.isDigit 4 r with
      | some [] => true
      | _ => false
  | some _ => false

/-- Full match of the identifier pattern `^\d-\d{8}$`. -/
def idMatch (cs : List Char) : Bool :=
  match cs with
  | c :: '-' :: r =>
      c.isDigit &&
        match consumeN Char.isDigit 8 r with
        | some [] => true
        | _ => false
  | _ => false

/-- Character class `[\)\-\.\s]` of the phone pattern. -/
def phoneSep1 (c : Char) : Bool := c == ')' || c == '-' || c == '.' || wsB c

/-- Character class `[\-\.\s]` of the phone pattern. -/
def phoneSep2 (c : Char) : Bool := c == '-' || c == '.' || wsB c

/-- Full match of the phone pattern `^\(?\d{3}[\)\-\.\s]?\d{3}[\-\.\s]?\d{4}$`. -/
def phoneMatch (cs : List Char) : Bool :=
  optThen (· == '(') cs fun r1 =>
    match consumeN Char.isDigit 3 r1 with
    | none => false
    | some r2 =>
        optThen phoneSep1 r2 fun r3 =>
          match consumeN Char.isDigit 3 r3 with
          | none => false
          | some r4 =>
              optThen phoneSep2 r4 fun r5 =>
                match consumeN Char.isDigit 4 r5 with
                | some [] => true
                | _ => false

/-- Character class dash-or-slash of the date-shape pattern. -/
def slashDash (c : Char) : Bool := c == '-' || c == '/'

/-- Character class `[\s,.-]` of the date-shape pattern. -/
def datePunct (c : Char) : Bool := wsB c || c == ',' || c == '.' || c == '-'

/-- Date-shape alternative: 1-4 digits, dash or slash, 1-2 digits, dash or
slash, 1-4 digits. -/
def dateAlt1 (cs : List Char) : Bool :=
  tryRange Char.isDigit 1 4 cs fun r1 =>
  oneChar slashDash r1 fun r2 =>
  tryRange Char.isDigit 1 2 r2 fun r3 =>
  oneChar slashDash r3 fun r4 =>
  tryRange Char.isDigit 1 4 r4 fun _ => true

/-- Date-shape alternative: 1-2 digits, dash or slash, 1-2 digits, dash or
slash, 2-4 digits (short year formats). -/
def dateAlt2 (cs : List Char) : Bool :=
  tryRange Char.isDigit 1 2 cs fun r1 =>
  oneChar slashDash r1 fun r2 =>
  tryRange Char.isDigit 1 2 r2 fun r3 =>
  oneChar slashDash r3 fun r4 =>
  tryRange Char.isDigit 2 4 r4 fun _ => true

/-- Date-shape alternative `[A-Za-z]{3,9}[\s,.-]+\d{1,2}[\s,.-]+\d{2,4}`. -/
def dateAlt3 (cs : List Char) : Bool :=
  tryRange Char.isAlpha 3 9 cs fun r1 =>
  many1 datePunct r1 fun r2 =>
  tryRange Char.isDigit 1 2 r2 fun r3 =>
  many1 datePunct r3 fun r4 =>
  tryRange Char.isDigit 2 4 r4 fun _ => true

/-- Date-shape alternative `\d{1,2}[\s,.-]+[A-Za-z]{3,9}[\s,.-]+\d{2,4}`. -/
def dateAlt4 (cs : List Char) : Bool :=
  tryRange Char.isDigit 1 2 cs fun r1 =>
  many1 datePunct r1 fun r2 =>
  tryRange Char.isAlpha 3 9 r2 fun r3 =>
  many1 datePunct r3 fun r4 =>
  tryRange Char.isDigit 2 4 r4 fun _ => true

/-- Any date-shape alternative matching at the current position. -/
def dateShapeAt (cs : List Char) : Bool :=
  dateAlt1 cs || dateAlt2 cs || dateAlt3 cs || dateAlt4 cs

/-- Unanchored search of the date-shape pattern (regex `search`). -/
def dateShapeSearch : List Char → Bool
  | [] => dateShapeAt []
  | c :: cs => dateShapeAt (c :: cs) || dateShapeSearch cs

/-- Test applied to each sampled value by `is_date_column`:
`bool(date_pattern.search(str(x).strip()))`. -/
def looksLikeDate (s : String) : Bool := dateShapeSearch (strTrim s).data

/-! ### Model of the calendar parse `pd.to_datetime(..., errors='coerce')` -/

/-- Month number of an English month name or three-letter abbreviation. -/
def monthNum (w : String) : Option Nat :=
  let t := strLower w
  if t = "jan" || t = "january" then some 1
  else if t = "feb" || t = "february" then some 2
  else if t = "mar" || t = "march" then some 3
  else if t = "apr" || t = "april" then some 4
  else if t = "may" then some 5
  else if t = "jun" || t = "june" then some 6
  else if t = "jul" || t = "july" then some 7
  else if t = "aug" || t = "august" then some 8
  else if t = "sep" || t = "september" then some 9
  else if t = "oct" || t = "october" then some 10
  else if t = "nov" || t = "november" then some 11
  else if t = "dec" || t = "december" then some 12
  else none

/-- Split a leading digit run from a character list. -/
def readDigitRun (cs : List Char) : List Char × List Char :=
  (cs.takeWhile Char.isDigit, cs.dropWhile Char.isDigit)

/-- Split a leading alphabetic run from a character list. -/
def readAlphaRun (cs : List Char) : List Char × List Char :=
  (cs.takeWhile Char.isAlpha, cs.dropWhile Char.isAlpha)

/-- Plausible month/day bounds used by the calendar-parse model. -/
def validMD (m d : Nat) : Bool :=
  decide (1 ≤ m) && decide (m ≤ 12) && decide (1 ≤ d) && decide (d ≤ 31)

/-- Numeric date layouts: year-month-day with a four-digit year, or
month-day-year with a two- or four-digit year, separated by dash or slash. -/
def dateNumeric (cs : List Char) : Bool :=
  let p1 := readDigitRun cs
  match p1.2 with
  | s1 :: r2 =>
      slashDash s1 &&
        (let p2 := readDigitRun r2
         match p2.2 with
         | s2 :: r4 =>
             slashDash s2 &&
               (let p3 := readDigitRun r4
                p3.2.isEmpty && !p1.1.isEmpty && !p2.1.isEmpty && !p3.1.isEmpty &&
                  ((p1.1.length == 4 && validMD (digitsToNat p2.1) (digitsToNat p3.1)) ||
                    (decide (p1.1.length ≤ 2) && (p3.1.length == 2 || p3.1.length == 4) &&
                      validMD (digitsToNat p1.1) (digitsToNat p2.1))))
         | [] => false)
  | [] => false

/-- Month-name date layouts: month name, day, year, or day, month name, year,
separated by whitespace, commas, periods or dashes. -/
def dateMonthName (cs : List Char) : Bool :=
  (let pw := readAlphaRun cs
   match monthNum (⟨pw.1⟩ : String) with
   | some _ =>
       let r2 := pw.2.dropWhile datePunct
       let pd := readDigitRun r2
       let r4 := pd.2.dropWhile datePunct
       let py := readDigitRun r4
       !pd.1.isEmpty && !py.1.isEmpty && py.2.isEmpty &&
         decide (1 ≤ digitsToNat pd.1) && decide (digitsToNat pd.1 ≤ 31) &&
         (py.1.length == 4 || py.1.length == 2)
   | none => false) ||
  (let pd := readDigitRun cs
   let r2 := pd.2.dropWhile datePunct
   let pw := readAlphaRun r2
   match monthNum (⟨pw.1⟩ : String) with
   | some _ =>
       let r4 := pw.2.dropWhile datePunct
       let py := readDigitRun r4
       !pd.1.isEmpty && !py.1.isEmpty && py.2.isEmpty &&
         decide (1 ≤ digitsToNat pd.1) && decide (digitsToNat pd.1 ≤ 31) &&
         (py.1.length == 4 || py.1.length == 2)
   | none => false)

/-- Model of the scalar calendar parse performed by
`pd.to_datetime(..., errors='coerce')` on a sampled string: a simplified
executable model accepting the common numeric and month-name layouts with
month 1-12 and day 1-31; anything else is a parse failure. -/
def parseDateOk (s : String) : Bool :=
  let cs := (strTrim s).data
  dateNumeric cs || dateMonthName cs

/-! ### Pattern samplers (source functions `is_zip_code` etc.) -/

/-- Source `is_zip_code`: more than half of the first 100 non-missing values,
trimmed, fully match the ZIP pattern; an empty sample yields `false`. -/
def is_zip_code (s : Series) : Bool :=
  let sample := sampleStrings s
  if sample.length = 0 then false
  else decide (2 * sample.countP (fun x => zipMatch (strTrim x).data) > sample.length)

/-- Source `is_id_format`: more than half of the first 100 non-missing values,
trimmed, fully match the identifier pattern; an empty sample yields `false`. -/
def is_id_format (s : Series) : Bool :=
  let sample := sampleStrings s
  if sample.length = 0 then false
  else decide (2 * sample.countP (fun x => idMatch (strTrim x).data) > sample.length)

/-- Source `is_phone_number`: more than half of the first 100 non-missing
values, trimmed, fully match the phone pattern; an empty sample yields
`false`. -/
def is_phone_number (s : Series) : Bool :=
  let sample := sampleStrings s
  if sample.length = 0 then false
  else decide (2 * sample.countP (fun x => phoneMatch (strTrim x).data) > sample.length)

/-- Source `is_date_column`: a datetime-dtype column is a date immediately; a
numeric-dtype column never is; otherwise at least half of the sample must look
date-shaped and strictly more than half must survive the calendar parse. -/
def is_date_column : Series → Bool
  | .dt _ => true
  | .num _ => false
  | .obj cells =>
      let sample := (cells.filterMap id).take 100
      if sample.length = 0 then false
      else if 2 * sample.countP looksLikeDate < sample.length then false
      else decide (2 * sample.countP parseDateOk > sample.length)

/-! ### Classifier (source `detect_excluded_columns`) -/

/-- Classification label of one column: the if/elif chain of
`detect_excluded_columns`, first positive family wins. -/
def detectLabel (s : Series) : Option String :=
  if is_id_format s then some "ID"
  else if is_zip_code s then some "ZIP Code"
  else if is_phone_number s then some "Phone Number"
  else if is_date_column s then some "Date"
  else none

/-- Source `detect_excluded_columns`: mapping from column name to the
classification label of the first matching family. -/
def detect_excluded_columns (df : List (String × Series)) : List (String × String) :=
  df.filterMap fun c => (detectLabel c.2).map fun r => (c.1, r)

/-! ### Numeric cleaner (source `clean_for_numeric`) -/

/-- Per-cell pipeline of `clean_for_numeric` on an object column: strip,
remove currency/percent characters, rewrite a blank result to `NaN`, then the
`pd.to_numeric` coercion. -/
def cleanCellStr (s : String) : Option Rat :=
  let t := removeCurrency (strTrim s)
  let v := if t.data.all wsB then "NaN" else t
  pdToNumeric v

/-- Source `clean_for_numeric`: object columns go through the string cleaning
pipeline cell by cell (missing cells having been rendered as the string `nan`
by `astype(str)`); a numeric column passes through `pd.to_numeric` unchanged;
a datetime column is modelled as its underlying timestamps. -/
def clean_for_numeric : Series → List (Option Rat)
  | .obj cs => cs.map fun c => cleanCellStr (c.getD "nan")
  | .num cs => cs
  | .dt cs => cs.map fun c => c.map fun n => ((n : Nat) : Rat)

/-! ### Type resolver (source `convert_numeric_columns`) -/

/-- Outcome of the resolver for one column: the re-typed column, whether it
was recorded as auto-numeric, and its excluded-report reason if any. -/
structure ColResult where
  series : Series
  isAutoNumeric : Bool
  excludedReason : Option String
deriving DecidableEq

/-- One iteration of the column loop of `convert_numeric_columns`:
force-exclude first, then force-include, then the auto-excluded report, then
the trial conversion with its strict majority success-rate test. -/
def resolveColumn (excluded : List (String × String)) (fi fe : List String)
    (n : String) (s : Series) : ColResult :=
  if n ∈ fe then ⟨astypeStr s, false, none⟩
  else if n ∈ fi then ⟨.num (clean_for_numeric s), true, none⟩
  else
    match excluded.lookup n with
    | some reason => ⟨astypeStr s, false, some reason⟩
    | none =>
        let conv := clean_for_numeric s
        let nn := nonMissingCount s
        if 0 < nn ∧ 2 * (conv.filterMap id).length > nn then ⟨.num conv, true, none⟩
        else ⟨astypeStr s, false, none⟩

/-- Source `convert_numeric_columns`: the re-typed dataframe, the auto-numeric
column names in column order, and the final excluded-column report. -/
def convert_numeric_columns (df : List (String × Series))
    (excluded : List (String × String)) (fi fe : List String) :
    List (String × Series) × List String × List (String × String) :=
  (df.map fun c => (c.1, (resolveColumn excluded fi fe c.1 c.2).series),
   (df.filter fun c => (resolveColumn excluded fi fe c.1 c.2).isAutoNumeric).map Prod.fst,
   df.filterMap fun c =>
     ((resolveColumn excluded fi fe c.1 c.2).excludedReason).map fun r => (c.1, r))

/-! ### Grouping-key normalization (data-cleaning block, source lines 388-415) -/

/-- Replacement value for PRVT/Prvt school types. -/
def privateLabel : String := "Private School (includes Montessori, Homeschool, etc)"

/-- Normalization of one grouping-column value: fill missing with `Empty`,
stringify and strip, rewrite the `nan` spellings and the empty string to
`Empty`, rewrite `PRVT`/`Prvt` to the private-school label, rewrite
`Charter School` to `Charter` (the sequential column replaces of the source,
applied to a single cell). -/
def normalizeKey (c : Option String) : String :=
  let t := strTrim (c.getD "Empty")
  let x1 := if t = "nan" ∨ t = "NaN" ∨ t = "NAN" ∨ t = "" then "Empty" else t
  let x2 := if x1 = "PRVT" ∨ x1 = "Prvt" then privateLabel else x1
  if x2 = "Charter School" then "Charter" else x2

/-! ### Aggregation (source lines 425-446) -/

/-- Pair each row's normalized grouping key with its zero-filled value. -/
def aggRows (rows : List (Option String × Option Rat)) : List (String × Rat) :=
  rows.map fun r => (normalizeKey r.1, r.2.getD 0)

/-- Boolean string order used to model the ascending key order of `groupby`. -/
def strLeB (a b : String) : Bool := decide (a ≤ b)

/-- Distinct group keys in ascending order (`groupby` sorts its keys). -/
def groupKeys (prs : List (String × Rat)) : List String :=
  ((prs.map Prod.fst).dedup).mergeSort strLeB

/-- Per-key sums of the value column (`groupby(...)[...].sum()`). -/
def groupTotals (prs : List (String × Rat)) : List (String × Rat) :=
  (groupKeys prs).map fun k => (k, ((prs.filter fun p => p.1 == k).map Prod.snd).sum)

/-- Boolean order sorting (key, total) pairs by total descending. -/
def totalDescB (a b : String × Rat) : Bool := decide (b.2 ≤ a.2)

/-- Source `result_df`: group totals sorted by total descending
(`sort_values(..., ascending=False)`; tie order is deterministic, modelled by
a stable sort). -/
def aggregate (rows : List (Option String × Option Rat)) : List (String × Rat) :=
  (groupTotals (aggRows rows)).mergeSort totalDescB

/-- Source `total_students`: the grand total displayed by the app, the sum of
the totals column of `result_df`. -/
def total_students (rows : List (Option String × Option Rat)) : Rat :=
  ((aggregate rows).map Prod.snd).sum

/-! ### Ratio forms of the sampler decisions (spec-side definitions) -/

/-- Match ratio of a predicate over a column's sample, 0 for an empty sample. -/
def matchRatio (f : String → Bool) (s : Series) : Rat :=
  let sample := sampleStrings s
  if sample.length = 0 then 0 else (sample.countP f : Rat) / (sample.length : Rat)

/-- Identifier-pattern match ratio of a column's sample. -/
def idRatio : Series → Rat := matchRatio fun x => idMatch (strTrim x).data

/-- ZIP-pattern match ratio of a column's sample. -/
def zipRatio : Series → Rat := matchRatio fun x => zipMatch (strTrim x).data

/-- Phone-pattern match ratio of a column's sample. -/
def phoneRatio : Series → Rat := matchRatio fun x => phoneMatch (strTrim x).data

/-- Date-shape match ratio of an object column's sample. -/
def dateShapeRatio (cells : List (Option String)) : Rat :=
  let sample := (cells.filterMap id).take 100
  if sample.length = 0 then 0 else (sample.countP looksLikeDate : Rat) / (sample.length : Rat)

/-- Calendar-parse success ratio of an object column's sample. -/
def dateParseRatio (cells : List (Option String)) : Rat :=
  let sample := (cells.filterMap id).take 100
  if sample.length = 0 then 0 else (sample.countP parseDateOk : Rat) / (sample.length : Rat)

/-- Definition written from the spec's words for the NumericCleaner contract
on a string input: trim surrounding whitespace, remove the currency and
percent characters anywhere, map a remaining empty or whitespace-only string
to missing, otherwise attempt the numeric parse with failure yielding
missing. -/
def numericCleanerSpec (s : String) : Option Rat :=
  let t := removeCurrency (strTrim s)
  if t.data.all wsB then none else pdToNumeric t

/-! ### Helper lemmas about trimming -/

theorem dropWhile_dropWhile {α} (p : α → Bool) (l : List α) :
    (l.dropWhile p).dropWhile p = l.dropWhile p := by
  induction l with
  | nil => rfl
  | cons a l ih =>
      by_cases h : p a
      · simp [List.dropWhile_cons, h, ih]
      · simp [List.dropWhile_cons, h]

theorem head_dropWhile_false {α} (p : α → Bool) :
    ∀ {l : List α} {a : α} {t : List α}, l.dropWhile p = a :: t → p a = false := by
  intro l
  induction l with
  | nil => intro a t h; simp [List.dropWhile] at h
  | cons b l ih =>
      intro a t h
      rw [List.dropWhile_cons] at h
      by_cases hb : p b
      · exact ih (by simpa [hb] using h)
      · rw [if_neg hb] at h
        injection h with h1 _
        rw [← h1]
        simpa using hb

theorem exists_append_dropWhile {α} (p : α → Bool) (l : List α) :
    ∃ t, l = t ++ l.dropWhile p := by
  induction l with
  | nil => exact ⟨[], rfl⟩
  | cons a l ih =>
      by_cases h : p a
      · obtain ⟨t, ht⟩ := ih
        refine ⟨a :: t, ?_⟩
        simp only [List.dropWhile_cons, h, if_pos]
        simpa using ht
      · exact ⟨[], by simp [List.dropWhile_cons, h]⟩

theorem dropWhile_trimChars (l : List Char) :
    (trimChars l).dropWhile wsB = trimChars l := by
  unfold trimChars
  obtain ⟨t, ht⟩ := exists_append_dropWhile wsB (l.dropWhile wsB).reverse
  cases hrev : ((l.dropWhile wsB).reverse.dropWhile wsB).reverse with
  | nil => simp [hrev]
  | cons a r =>
      have hm : l.dropWhile wsB = a :: (r ++ t.reverse) := by
        have h1 : l.dropWhile wsB =
            ((l.dropWhile wsB).reverse.dropWhile wsB).reverse ++ t.reverse := by
          have := congrArg List.reverse ht
          simpa using this
        rw [hrev] at h1
        simpa using h1
      have ha : wsB a = false := head_dropWhile_false wsB hm
      simp [List.dropWhile_cons, ha]

theorem trimChars_trimChars (l : List Char) : trimChars (trimChars l) = trimChars l := by
  have h1 : (trimChars l).dropWhile wsB = trimChars l := dropWhile_trimChars l
  have e : (trimChars l).reverse = (l.dropWhile wsB).reverse.dropWhile wsB := by
    show (((l.dropWhile wsB).reverse.dropWhile wsB).reverse).reverse = _
    rw [List.reverse_reverse]
  have h2 : (trimChars l).reverse.dropWhile wsB = (trimChars l).reverse := by
    rw [e, dropWhile_dropWhile]
  calc trimChars (trimChars l)
      = (((trimChars l).dropWhile wsB).reverse.dropWhile wsB).reverse := rfl
    _ = ((trimChars l).reverse.dropWhile wsB).reverse := by rw [h1]
    _ = (trimChars l).reverse.reverse := by rw [h2]
    _ = trimChars l := List.reverse_reverse _

theorem strTrim_strTrim (s : String) : strTrim (strTrim s) = strTrim s := by
  show (⟨trimChars (trimChars s.data)⟩ : String) = ⟨trimChars s.data⟩
  exact congrArg String.mk (trimChars_trimChars s.data)

/-- C6: GroupingNormalizer is idempotent: for every grouping-column value,
applying the full normalization (fill missing with Empty, stringify and trim,
rewrite the nan spellings and the empty string to Empty, rewrite PRVT/Prvt to
the private-school label, rewrite Charter School to Charter) twice yields the
same output as applying it once. -/
theorem normalizeKey_idempotent (c : Option String) :
    normalizeKey (some (normalizeKey c)) = normalizeKey c := by
  rcases c with _ | s
  · decide
  · by_cases h1 : strTrim s = "nan" ∨ strTrim s = "NaN" ∨ strTrim s = "NAN" ∨ strTrim s = ""
    · have hv : normalizeKey (some s) = "Empty" := by
        simp only [normalizeKey, Option.getD_some, if_pos h1]
        decide
      rw [hv]; decide
    · by_cases h2 : strTrim s = "PRVT" ∨ strTrim s = "Prvt"
      · have hv : normalizeKey (some s) = privateLabel := by
          simp only [normalizeKey, Option.getD_some, if_neg h1, if_pos h2]
          decide
        rw [hv]; decide
      · by_cases h3 : strTrim s = "Charter School"
        · have hv : normalizeKey (some s) = "Charter" := by
            simp only [normalizeKey, Option.getD_some, if_neg h1, if_neg h2, if_pos h3]
          rw [hv]; decide
        · have hv : normalizeKey (some s) = strTrim s := by
            simp only [normalizeKey, Option.getD_some, if_neg h1, if_neg h2, if_neg h3]
          rw [hv]
          simp only [normalizeKey, Option.getD_some, strTrim_strTrim,
            if_neg h1, if_neg h2, if_neg h3]

/-! ### Helper lemmas about the resolver and the samplers -/

theorem seriesType_astypeStr (s : Series) : seriesType (astypeStr s) = ColType.Text := by
  cases s <;> rfl

theorem lookup_some_mem {α β : Type} [BEq α] :
    ∀ (l : List (α × β)) (a : α) (b : β), l.lookup a = some b → ∃ k, (k, b) ∈ l := by
  intro l a b
  induction l with
  | nil => intro h; simp [List.lookup] at h
  | cons c t ih =>
      obtain ⟨k, v⟩ := c
      intro h
      simp only [List.lookup] at h
      cases hak : a == k with
      | true =>
          rw [hak] at h
          simp only at h
          refine ⟨k, ?_⟩
          have : v = b := by injection h
          simp [this]
      | false =>
          rw [hak] at h
          simp only at h
          obtain ⟨k2, hk2⟩ := ih h
          exact ⟨k2, List.mem_cons_of_mem _ hk2⟩

theorem sampleStrings_eq_nil (s : Series) (h : nonMissingCount s = 0) :
    sampleStrings s = [] := by
  cases s with
  | obj cs =>
      simp only [nonMissingCount] at h
      simp [sampleStrings, List.length_eq_zero.mp h]
  | num cs =>
      simp only [nonMissingCount] at h
      simp [sampleStrings, List.length_eq_zero.mp h]
  | dt cs =>
      simp only [nonMissingCount] at h
      simp [sampleStrings, List.length_eq_zero.mp h]

theorem ratio_gt_half (cnt len : Nat) (h : len ≠ 0) :
    ((cnt : Rat) / (len : Rat) > 1 / 2) ↔ 2 * cnt > len := by
  have hl : (0 : Rat) < (len : Rat) := by
    exact_mod_cast Nat.pos_of_ne_zero h
  rw [gt_iff_lt, div_lt_div_iff₀ (by norm_num : (0 : Rat) < 2) hl]
  constructor
  · intro h2
    have h3 : 1 * (len : Rat) < (cnt : Rat) * 2 := h2
    have h4 : 1 * len < cnt * 2 := by exact_mod_cast h3
    omega
  · intro h2
    have h4 : 1 * len < cnt * 2 := by omega
    exact_mod_cast h4

theorem ratio_ge_half (cnt len : Nat) (h : len ≠ 0) :
    ((cnt : Rat) / (len : Rat) ≥ 1 / 2) ↔ 2 * cnt ≥ len := by
  have hl : (0 : Rat) < (len : Rat) := by
    exact_mod_cast Nat.pos_of_ne_zero h
  rw [ge_iff_le, div_le_div_iff₀ (by norm_num : (0 : Rat) < 2) hl]
  constructor
  · intro h2
    have h4 : 1 * len ≤ cnt * 2 := by exact_mod_cast h2
    omega
  · intro h2
    have h4 : 1 * len ≤ cnt * 2 := by omega
    exact_mod_cast h4

theorem is_id_format_iff (s : Series) : is_id_format s = true ↔ idRatio s > 1 / 2 := by
  simp only [is_id_format, idRatio, matchRatio]
  by_cases hl : (sampleStrings s).length = 0
  · rw [if_pos hl, if_pos hl]
    norm_num
  · rw [if_neg hl, if_neg hl, ratio_gt_half _ _ hl]
    simp

theorem is_zip_code_iff (s : Series) : is_zip_code s = true ↔ zipRatio s > 1 / 2 := by
  simp only [is_zip_code, zipRatio, matchRatio]
  by_cases hl : (sampleStrings s).length = 0
  · rw [if_pos hl, if_pos hl]
    norm_num
  · rw [if_neg hl, if_neg hl, ratio_gt_half _ _ hl]
    simp

theorem is_phone_number_iff (s : Series) :
    is_phone_number s = true ↔ phoneRatio s > 1 / 2 := by
  simp only [is_phone_number, phoneRatio, matchRatio]
  by_cases hl : (sampleStrings s).length = 0
  · rw [if_pos hl, if_pos hl]
    norm_num
  · rw [if_neg hl, if_neg hl, ratio_gt_half _ _ hl]
    simp

/-! ### Claim theorems -/

/-- C4: NumericCleaner trims surrounding whitespace, removes every occurrence
of the dollar, comma, euro and percent characters, maps a remaining empty or
whitespace-only string to missing, and parses the rest numerically with parse
failure yielding missing (the pipeline equals the spec-side cleaner on every
string); in particular the cleaner maps the string dollar-1,234.50 to 1234.50,
a whitespace-only string to missing and 12% to 12, while a numeric-dtype
column passes through the standard numeric coercion unchanged. -/
theorem numericCleaner_ok :
    (∀ s : String, cleanCellStr s = numericCleanerSpec s) ∧
    cleanCellStr "$1,234.50" = some (1234.5 : Rat) ∧
    cleanCellStr "  " = none ∧
    cleanCellStr "12%" = some 12 ∧
    (∀ cells : List (Option Rat), clean_for_numeric (.num cells) = cells) := by
  refine ⟨?_, ?_, by decide, ?_, fun _ => rfl⟩
  case refine_2 =>
    have h : cleanCellStr "$1,234.50" = some (mkRat 123450 100) := by decide
    rw [h, Rat.mkRat_eq_div]
    norm_num
  case refine_3 =>
    have h : cleanCellStr "12%" = some (mkRat 12 1) := by decide
    rw [h, Rat.mkRat_eq_div]
    norm_num
  intro s
  unfold cleanCellStr numericCleanerSpec
  by_cases h : (removeCurrency (strTrim s)).data.all wsB
  · simp only [if_pos h]
    decide
  · simp only [if_neg h]

/-- C3: the classifier evaluates the pattern families in the fixed order
Identifier, ZipCode, PhoneNumber, Date; the first family whose match ratio
exceeds one half determines the classification and pre-empts the remaining
checks; in particular a column whose identifier match ratio exceeds one half
is labelled by the Identifier family whatever the other tests would say (the
Date family's criterion is its two-stage test rather than a single ratio). -/
theorem classifier_priority (s : Series) :
    (detectLabel s = some "ID" ↔ idRatio s > 1 / 2) ∧
    (detectLabel s = some "ZIP Code" ↔ ¬ idRatio s > 1 / 2 ∧ zipRatio s > 1 / 2) ∧
    (detectLabel s = some "Phone Number" ↔
      ¬ idRatio s > 1 / 2 ∧ ¬ zipRatio s > 1 / 2 ∧ phoneRatio s > 1 / 2) ∧
    (detectLabel s = some "Date" ↔
      ¬ idRatio s > 1 / 2 ∧ ¬ zipRatio s > 1 / 2 ∧ ¬ phoneRatio s > 1 / 2 ∧
        is_date_column s = true) := by
  rw [← is_id_format_iff, ← is_zip_code_iff, ← is_phone_number_iff]
  unfold detectLabel
  cases h1 : is_id_format s <;> cases h2 : is_zip_code s <;>
    cases h3 : is_phone_number s <;> cases h4 : is_date_column s <;>
      simp [h1, h2, h3, h4]

/-- C8: the Date classification follows the two-stage rule: a declared
datetime-dtype column is Date immediately, a declared numeric-dtype column is
never Date, and an object column is Date exactly when at least half of its
up-to-100-value non-missing sample matches the date-shaped pattern and
strictly more than half of the sample survives the calendar parse. -/
theorem date_two_stage :
    (∀ cs, is_date_column (Series.dt cs) = true) ∧
    (∀ cs, is_date_column (Series.num cs) = false) ∧
    (∀ cells, is_date_column (Series.obj cells) = true ↔
        dateShapeRatio cells ≥ 1 / 2 ∧ dateParseRatio cells > 1 / 2) := by
  refine ⟨fun _ => rfl, fun _ => rfl, fun cells => ?_⟩
  simp only [is_date_column, dateShapeRatio, dateParseRatio]
  by_cases hl : ((cells.filterMap id).take 100).length = 0
  · rw [if_pos hl, if_pos hl, if_pos hl]
    constructor
    · intro h; simp at h
    · rintro ⟨h, _⟩; norm_num at h
  · rw [if_neg hl, if_neg hl, if_neg hl,
      ratio_ge_half _ _ hl, ratio_gt_half _ _ hl]
    by_cases hs : 2 * ((cells.filterMap id).take 100).countP looksLikeDate <
        ((cells.filterMap id).take 100).length
    · rw [if_pos hs]
      constructor
      · intro h; simp at h
      · rintro ⟨h, _⟩; omega
    · rw [if_neg hs]
      simp only [decide_eq_true_eq]
      constructor
      · intro h; exact ⟨by omega, h⟩
      · rintro ⟨_, h⟩; exact h

/-- C5 (amended): a column with zero non-missing values has sampler match
ratio 0 for every sampled family (no division by zero occurs), none of the
Identifier / ZipCode / PhoneNumber families classifies it, an object column
with an empty sample is not classified Date either (only the declared
datetime dtype can classify an empty column as Date), and, when it is not
force-included, the resolver's trial-conversion step treats it as a failure
and assigns Text: such a column is never auto-classified Numeric. -/
theorem empty_column_resolves_text (excluded : List (String × String))
    (fi fe : List String) (n : String) (s : Series)
    (hn : nonMissingCount s = 0) (hfi : n ∉ fi) :
    idRatio s = 0 ∧ zipRatio s = 0 ∧ phoneRatio s = 0 ∧
    is_id_format s = false ∧ is_zip_code s = false ∧ is_phone_number s = false ∧
    (∀ cells, s = Series.obj cells → is_date_column s = false) ∧
    seriesType (resolveColumn excluded fi fe n s).series = ColType.Text ∧
    (resolveColumn excluded fi fe n s).isAutoNumeric = false := by
  have hs : sampleStrings s = [] := sampleStrings_eq_nil s hn
  have hres : (resolveColumn excluded fi fe n s).series = astypeStr s ∧
      (resolveColumn excluded fi fe n s).isAutoNumeric = false := by
    simp only [resolveColumn]
    by_cases hfe : n ∈ fe
    · rw [if_pos hfe]
      exact ⟨rfl, rfl⟩
    · rw [if_neg hfe, if_neg hfi]
      cases hl : excluded.lookup n with
      | some r => exact ⟨rfl, rfl⟩
      | none =>
          rw [if_neg]
          · exact ⟨rfl, rfl⟩
          · rintro ⟨h1, _⟩
            rw [hn] at h1
            exact absurd h1 (lt_irrefl 0)
  refine ⟨by simp [idRatio, matchRatio, hs], by simp [zipRatio, matchRatio, hs],
    by simp [phoneRatio, matchRatio, hs],
    by simp [is_id_format, hs], by simp [is_zip_code, hs], by simp [is_phone_number, hs],
    ?_, ?_, hres.2⟩
  · intro cells hc
    subst hc
    simp only [nonMissingCount] at hn
    simp [is_date_column, List.length_eq_zero.mp hn]
  · rw [hres.1]
    exact seriesType_astypeStr s

/-- Witness for C5 at a concrete all-missing object column. -/
theorem empty_column_resolves_text_witness :
    nonMissingCount (Series.obj [none]) = 0 ∧ "a" ∉ ([] : List String) ∧
    seriesType (resolveColumn [] [] [] "a" (Series.obj [none])).series = ColType.Text := by
  refine ⟨rfl, by simp, ?_⟩
  exact (empty_column_resolves_text [] [] [] "a" (Series.obj [none]) rfl
    (by simp)).2.2.2.2.2.2.2.1

/-- C5 counterexample to the claim as stated: a declared datetime-dtype column
with zero non-missing values is still classified by the Date family (by its
storage dtype), so it is not true that no pattern family classifies a column
with zero non-missing values. -/
theorem empty_column_counterexample :
    nonMissingCount (Series.dt []) = 0 ∧ is_date_column (Series.dt []) = true :=
  ⟨rfl, rfl⟩

/-- C2: a column whose name is in both the force-include and the
force-exclude set resolves to Text (all values stored as strings):
force-exclusion takes precedence over force-inclusion, because the resolver
tests the force-exclude set first. -/
theorem force_exclude_wins (df : List (String × Series))
    (excluded : List (String × String)) (fi fe : List String)
    (n : String) (s : Series)
    (hdf : (n, s) ∈ df) (_hfi : n ∈ fi) (hfe : n ∈ fe) :
    (resolveColumn excluded fi fe n s).series = astypeStr s ∧
    seriesType (resolveColumn excluded fi fe n s).series = ColType.Text ∧
    (resolveColumn excluded fi fe n s).isAutoNumeric = false ∧
    (n, astypeStr s) ∈ (convert_numeric_columns df excluded fi fe).1 := by
  have hr : resolveColumn excluded fi fe n s = ⟨astypeStr s, false, none⟩ := by
    unfold resolveColumn
    rw [if_pos hfe]
  refine ⟨by rw [hr], by rw [hr]; exact seriesType_astypeStr s, by rw [hr], ?_⟩
  unfold convert_numeric_columns
  refine List.mem_map.mpr ⟨(n, s), hdf, ?_⟩
  rw [hr]

/-- Witness for C2 at a concrete column present in both override sets. -/
theorem force_exclude_wins_witness :
    ("a", Series.obj [some "1"]) ∈ ([("a", Series.obj [some "1"])] : List (String × Series)) ∧
    "a" ∈ ["a"] ∧ "a" ∈ ["a"] ∧
    seriesType (resolveColumn [] ["a"] ["a"] "a" (Series.obj [some "1"])).series =
      ColType.Text := by
  refine ⟨by simp, by simp, by simp, ?_⟩
  exact (force_exclude_wins [("a", Series.obj [some "1"])] [] ["a"] ["a"] "a"
    (Series.obj [some "1"]) (by simp) (by simp) (by simp)).2.1

/-- C10: a column in the force-include set but not in the force-exclude set is
converted with the numeric cleaner and recorded as auto-numeric
unconditionally: its resolved column is exactly the cleaned numeric column
whatever fraction of its values parses (the success-rate test is never
applied), and it never appears in the excluded-columns report even when the
classifier labelled it. -/
theorem force_include_unconditional (df : List (String × Series))
    (excluded : List (String × String)) (fi fe : List String)
    (n : String) (s : Series)
    (hdf : (n, s) ∈ df) (hfi : n ∈ fi) (hfe : n ∉ fe) :
    (resolveColumn excluded fi fe n s).series = Series.num (clean_for_numeric s) ∧
    seriesType (resolveColumn excluded fi fe n s).series = ColType.Numeric ∧
    (resolveColumn excluded fi fe n s).excludedReason = none ∧
    n ∈ (convert_numeric_columns df excluded fi fe).2.1 ∧
    n ∉ ((convert_numeric_columns df excluded fi fe).2.2).map Prod.fst := by
  have hr : resolveColumn excluded fi fe n s =
      ⟨Series.num (clean_for_numeric s), true, none⟩ := by
    unfold resolveColumn
    rw [if_neg hfe, if_pos hfi]
  refine ⟨by rw [hr], by rw [hr]; rfl, by rw [hr], ?_, ?_⟩
  · unfold convert_numeric_columns
    refine List.mem_map.mpr ⟨(n, s), List.mem_filter.mpr ⟨hdf, ?_⟩, rfl⟩
    rw [hr]
  · intro hmem
    rw [List.mem_map] at hmem
    obtain ⟨p, hp, hpn⟩ := hmem
    unfold convert_numeric_columns at hp
    rw [List.mem_filterMap] at hp
    obtain ⟨c, _, hc⟩ := hp
    rw [Option.map_eq_some'] at hc
    obtain ⟨r, hr2, heq⟩ := hc
    have hc1 : c.1 = n := by
      rw [← heq] at hpn
      exact hpn
    rw [hc1] at hr2
    unfold resolveColumn at hr2
    rw [if_neg hfe, if_pos hfi] at hr2
    simp at hr2

/-- Witness for C10 at a concrete force-included column none of whose values
parses numerically. -/
theorem force_include_unconditional_witness :
    "a" ∈ ["a"] ∧ "a" ∉ ([] : List String) ∧
    "a" ∈ (convert_numeric_columns [("a", Series.obj [some "abc"])]
      [("a", "ID")] ["a"] []).2.1 := by
  refine ⟨by simp, by simp, ?_⟩
  exact (force_include_unconditional [("a", Series.obj [some "abc"])] [("a", "ID")] ["a"] []
    "a" (Series.obj [some "abc"]) (by simp) (by simp) (by simp)).2.2.2.1

/-- Reasons recorded by the resolver come from the excluded-columns mapping it
was given. -/
theorem resolveColumn_reason_mem (excluded : List (String × String))
    (fi fe : List String) (n : String) (s : Series) (r : String)
    (h : (resolveColumn excluded fi fe n s).excludedReason = some r) :
    ∃ k, (k, r) ∈ excluded := by
  unfold resolveColumn at h
  by_cases hfe : n ∈ fe
  · rw [if_pos hfe] at h
    simp at h
  · rw [if_neg hfe] at h
    by_cases hfi : n ∈ fi
    · rw [if_pos hfi] at h
      simp at h
    · rw [if_neg hfi] at h
      cases hl : excluded.lookup n with
      | none =>
          rw [hl] at h
          simp only at h
          split_ifs at h
      | some reason =>
          rw [hl] at h
          simp only at h
          have : reason = r := by injection h
          exact lookup_some_mem excluded n r (this ▸ hl)

/-- Labels produced by the classifier are among the four family labels. -/
theorem detect_label_mem (df : List (String × Series)) (k r : String)
    (h : (k, r) ∈ detect_excluded_columns df) :
    r = "ID" ∨ r = "ZIP Code" ∨ r = "Phone Number" ∨ r = "Date" := by
  unfold detect_excluded_columns at h
  rw [List.mem_filterMap] at h
  obtain ⟨c, _, hc⟩ := h
  rw [Option.map_eq_some'] at hc
  obtain ⟨lab, hlab, heq⟩ := hc
  have hlr : lab = r := by
    have := congrArg Prod.snd heq
    simpa using this
  subst hlr
  unfold detectLabel at hlab
  split_ifs at hlab <;> simp at hlab <;> simp [← hlab]

/-- C9 (amended): every classification reason recorded in the typing-phase
excluded-columns report built from the auto-detected classification is one of
the four labels ID, ZIP Code, Phone Number, Date. -/
theorem excluded_report_reasons (df : List (String × Series)) (fi fe : List String)
    (p : String × String)
    (hp : p ∈ (convert_numeric_columns df (detect_excluded_columns df) fi fe).2.2) :
    p.2 = "ID" ∨ p.2 = "ZIP Code" ∨ p.2 = "Phone Number" ∨ p.2 = "Date" := by
  unfold convert_numeric_columns at hp
  rw [List.mem_filterMap] at hp
  obtain ⟨c, _, hc⟩ := hp
  rw [Option.map_eq_some'] at hc
  obtain ⟨r, hr, heq⟩ := hc
  obtain ⟨k, hk⟩ := resolveColumn_reason_mem _ _ _ _ _ _ hr
  have hmem := detect_label_mem df k r hk
  have hp2 : p.2 = r := by
    have := congrArg Prod.snd heq
    simpa using this.symm
  rw [hp2]
  exact hmem

/-- Witness for C9 at a concrete dataset whose only column is classified by
the Identifier family. -/
theorem excluded_report_reasons_witness :
    ("c", "ID") ∈ (convert_numeric_columns
      [("c", Series.obj [some "1-12345678", some "2-23456789"])]
      (detect_excluded_columns [("c", Series.obj [some "1-12345678", some "2-23456789"])])
      [] []).2.2 ∧
    ("ID" = "ID" ∨ "ID" = "ZIP Code" ∨ "ID" = "Phone Number" ∨ "ID" = "Date") := by
  refine ⟨by decide, ?_⟩
  exact excluded_report_reasons
    [("c", Series.obj [some "1-12345678", some "2-23456789"])] [] [] ("c", "ID") (by decide)

/-- C9 counterexample to the claim as stated: the report records the literal
label ID (and ZIP Code, upper-case), not Identifier; the recorded reason at
this concrete input is none of the four labels the claim names. -/
theorem excluded_report_reasons_counterexample :
    (convert_numeric_columns [("c", Series.obj [some "1-12345678", some "2-23456789"])]
      (detect_excluded_columns [("c", Series.obj [some "1-12345678", some "2-23456789"])])
      [] []).2.2 = [("c", "ID")] ∧
    ¬("ID" = "Identifier" ∨ "ID" = "Zip Code" ∨ "ID" = "Phone Number" ∨ "ID" = "Date") := by
  exact ⟨by decide, by decide⟩

/-! ### Aggregation lemmas -/

theorem groupKeys_nodup (prs : List (String × Rat)) : (groupKeys prs).Nodup :=
  ((List.mergeSort_perm ((prs.map Prod.fst).dedup) strLeB).symm).nodup (List.nodup_dedup _)

theorem mem_groupKeys {prs : List (String × Rat)} {k : String} :
    k ∈ groupKeys prs ↔ k ∈ prs.map Prod.fst := by
  unfold groupKeys
  rw [(List.mergeSort_perm _ strLeB).mem_iff, List.mem_dedup]

theorem map_fst_groupTotals (prs : List (String × Rat)) :
    (groupTotals prs).map Prod.fst = groupKeys prs := by
  unfold groupTotals
  rw [List.map_map]
  have h : (Prod.fst ∘ fun k : String =>
      (k, ((prs.filter fun p => p.1 == k).map Prod.snd).sum)) = id := rfl
  rw [h, List.map_id]

theorem sum_map_if_beq (a : String) (x : Rat) (g : String → Rat) :
    ∀ ks : List String, ks.Nodup → a ∈ ks →
      (ks.map fun k => if a == k then x + g k else g k).sum = x + (ks.map g).sum := by
  intro ks
  induction ks with
  | nil => intro _ ha; simp at ha
  | cons k ks ih =>
      intro hnd ha
      rw [List.map_cons, List.map_cons, List.sum_cons, List.sum_cons]
      by_cases hak : a = k
      · subst hak
        rw [if_pos (by simp)]
        have hnotin : a ∉ ks := (List.nodup_cons.mp hnd).1
        have hmap : (ks.map fun k2 => if a == k2 then x + g k2 else g k2) = ks.map g := by
          apply List.map_congr_left
          intro b hb
          have hne : a ≠ b := fun he => hnotin (he ▸ hb)
          rw [if_neg (by simp [hne])]
        rw [hmap]
        ring
      · rw [if_neg (by simp [hak])]
        have ha2 : a ∈ ks := by
          rcases List.mem_cons.mp ha with h | h
          · exact absurd h hak
          · exact h
        rw [ih (List.nodup_cons.mp hnd).2 ha2]
        ring

theorem sum_groupTotals_eq (ks : List String) :
    ∀ prs : List (String × Rat), ks.Nodup → (∀ p ∈ prs, p.1 ∈ ks) →
      (ks.map fun k => ((prs.filter fun p => p.1 == k).map Prod.snd).sum).sum
        = (prs.map Prod.snd).sum := by
  intro prs
  induction prs with
  | nil => intro _ _; simp
  | cons r prs ih =>
      intro hnd hcov
      have hstep :
          (ks.map fun k => (((r :: prs).filter fun p => p.1 == k).map Prod.snd).sum) =
            ks.map fun k =>
              if r.1 == k then
                r.2 + ((prs.filter fun p => p.1 == k).map Prod.snd).sum
              else ((prs.filter fun p => p.1 == k).map Prod.snd).sum := by
        apply List.map_congr_left
        intro k _
        by_cases hrk : (r.1 == k) = true
        · rw [List.filter_cons, if_pos hrk, if_pos hrk, List.map_cons, List.sum_cons]
        · rw [List.filter_cons, if_neg hrk, if_neg hrk]
      rw [hstep,
        sum_map_if_beq r.1 r.2
          (fun k => ((prs.filter fun p => p.1 == k).map Prod.snd).sum) ks hnd
          (hcov r (List.mem_cons_self r prs)),
        ih hnd (fun p hp => hcov p (List.mem_cons_of_mem r hp)),
        List.map_cons, List.sum_cons]

/-- C1: for every dataset and every grouping / numeric column choice, the sum
of the totals in the aggregation result equals the sum of the value column
over all rows after its missing values have been filled with 0: the reported
grand total is the post-fill column sum. -/
theorem aggregation_grand_total (rows : List (Option String × Option Rat)) :
    total_students rows = (rows.map fun r => (r.2).getD 0).sum := by
  unfold total_students aggregate
  have hperm :
      (((groupTotals (aggRows rows)).mergeSort totalDescB).map Prod.snd).Perm
        ((groupTotals (aggRows rows)).map Prod.snd) :=
    (List.mergeSort_perm _ _).map Prod.snd
  rw [hperm.sum_eq]
  have h2 : ((groupTotals (aggRows rows)).map Prod.snd).sum
      = ((aggRows rows).map Prod.snd).sum := by
    unfold groupTotals
    rw [List.map_map]
    exact sum_groupTotals_eq (groupKeys (aggRows rows)) (aggRows rows)
      (groupKeys_nodup _) (fun p hp => mem_groupKeys.mpr (List.mem_map_of_mem Prod.fst hp))
  rw [h2]
  unfold aggRows
  rw [List.map_map]
  rfl

/-- C7: the aggregation result is sorted by total in descending order, its
keys are pairwise distinct, every row's normalized grouping key appears among
the result keys, and every result key is the normalized grouping key of some
row, so each distinct normalized key appears exactly once (the function is
deterministic for identical input by construction). -/
theorem aggregation_result_invariants (rows : List (Option String × Option Rat)) :
    List.Sorted (fun a b : String × Rat => b.2 ≤ a.2) (aggregate rows) ∧
    ((aggregate rows).map Prod.fst).Nodup ∧
    (∀ r ∈ rows, normalizeKey r.1 ∈ (aggregate rows).map Prod.fst) ∧
    (∀ k ∈ (aggregate rows).map Prod.fst, ∃ r ∈ rows, normalizeKey r.1 = k) := by
  have hperm : (aggregate rows).Perm (groupTotals (aggRows rows)) := List.mergeSort_perm _ _
  have hkeys : ((aggregate rows).map Prod.fst).Perm (groupKeys (aggRows rows)) := by
    have h := hperm.map Prod.fst
    rwa [map_fst_groupTotals] at h
  refine ⟨?_, ?_, ?_, ?_⟩
  · have htrans : ∀ a b c : String × Rat,
        totalDescB a b = true → totalDescB b c = true → totalDescB a c = true := by
      intro a b c hab hbc
      simp only [totalDescB, decide_eq_true_eq] at hab hbc ⊢
      exact le_trans hbc hab
    have htotal : ∀ a b : String × Rat, (totalDescB a b || totalDescB b a) = true := by
      intro a b
      simp only [totalDescB, Bool.or_eq_true, decide_eq_true_eq]
      exact le_total b.2 a.2
    have hp := List.sorted_mergeSort htrans htotal (groupTotals (aggRows rows))
    exact hp.imp fun h => by simpa [totalDescB] using h
  · exact hkeys.symm.nodup (groupKeys_nodup _)
  · intro r hr
    rw [hkeys.mem_iff, mem_groupKeys]
    exact List.mem_map.mpr ⟨(normalizeKey r.1, r.2.getD 0), List.mem_map_of_mem _ hr, rfl⟩
  · intro k hk
    rw [hkeys.mem_iff, mem_groupKeys] at hk
    obtain ⟨p, hp, hpk⟩ := List.mem_map.mp hk
    obtain ⟨r, hr, hrp⟩ := List.mem_map.mp hp
    refine ⟨r, hr, ?_⟩
    rw [← hpk, ← hrp]

/-- Witness for C7 at a concrete three-row dataset. -/
theorem aggregation_result_invariants_witness :
    (some "A", some (10 : Rat)) ∈
      ([(some "A", some 10), (some "B", some 5), (some "A", some 3)] :
        List (Option String × Option Rat)) ∧
    normalizeKey (some "A") ∈
      ((aggregate [(some "A", some 10), (some "B", some 5), (some "A", some 3)]).map
        Prod.fst) := by
  refine ⟨List.mem_cons_self _ _, ?_⟩
  exact (aggregation_result_invariants
    [(some "A", some 10), (some "B", some 5), (some "A", some 3)]).2.2.1
    (some "A", some 10) (List.mem_cons_self _ _)

end JAElevate
